import Mathlib

/-!
Verification development for the Google Drive automation tool
(`utilities.py`, `drive_manager.py`, `gdrive_tool.py`).

The Python functions are shallowly embedded as executable Lean
definitions.  Remote RPCs are modelled as explicit oracles
(functions returning `Except`), raised Python exceptions as
`Except.error`, and `None` results as `Option.none`.
-/

namespace GDrive

/-! ## URL parsing (`utilities.py`, `DriveUtilities.extract_file_id_from_url`)

`urllib.parse.urlparse` is modelled for absolute `scheme://netloc/path?query#fragment`
URLs (and scheme-less strings, which Python treats as all-path): the fragment is cut
at the first `#`, the query at the first `?`, and when the string contains `://` the
netloc runs to the next `/`.  Percent-decoding is not modelled (none of the claims'
inputs use it). -/

/-- Split a character list at the first occurrence of `sep`; the second component
is `none` when `sep` does not occur. -/
def splitAtFirst (sep : Char) : List Char → List Char × Option (List Char)
  | [] => ([], none)
  | c :: rest =>
    if c = sep then ([], some rest)
    else
      let p := splitAtFirst sep rest
      (c :: p.1, p.2)

/-- Drop everything up to and including the first `://`; `none` if absent. -/
def dropThroughSchemeSep : List Char → Option (List Char)
  | [] => none
  | ':' :: '/' :: '/' :: rest => some rest
  | _ :: rest => dropThroughSchemeSep rest

/-- The `(path, query)` components of a URL, following `urllib.parse.urlparse`. -/
def urlPathQuery (url : String) : List Char × List Char :=
  let noFrag := (splitAtFirst '#' url.data).1
  let bq := splitAtFirst '?' noFrag
  let query := bq.2.getD []
  let path :=
    match dropThroughSchemeSep bq.1 with
    | some afterSep =>
      match (splitAtFirst '/' afterSep).2 with
      | some p => '/' :: p
      | none => []
    | none => bq.1
  (path, query)

/-- The character class `[a-zA-Z0-9_-]` used by all four extraction patterns. -/
def isIdChar (c : Char) : Bool :=
  c.isAlpha || c.isDigit || c = '_' || c = '-'

/-- Model of `re.search(lit ++ "([a-zA-Z0-9_-]+)", s)`: scan left to right for the literal
`lit` followed by at least one id character; return the maximal id-character run
(the capture group) of the first match. -/
def searchLitId (lit : List Char) : List Char → Option String
  | [] => none
  | c :: rest =>
    if lit.isPrefixOf (c :: rest) then
      let run := ((c :: rest).drop lit.length).takeWhile isIdChar
      if run.isEmpty then searchLitId lit rest else some (String.mk run)
    else searchLitId lit rest

/-- Split a query string on `&` into fields, as `urllib.parse.parse_qs` does. -/
def qsFields : List Char → List (List Char)
  | [] => [[]]
  | c :: rest =>
    if c = '&' then [] :: qsFields rest
    else
      match qsFields rest with
      | f :: fs => (c :: f) :: fs
      | [] => [[c]]

/-- The value of a single `id=<nonempty>` query field (blank values are skipped,
matching `parse_qs`'s default `keep_blank_values=False`). -/
def fieldIdValue (f : List Char) : Option String :=
  match splitAtFirst '=' f with
  | (k, some v) =>
    if k = ['i', 'd'] then (if v.isEmpty then none else some (String.mk v)) else none
  | (_, none) => none

/-- Model of `parse_qs(query)['id'][0]` when present: the first non-blank `id` value. -/
def parseQsId (q : List Char) : Option String :=
  ((qsFields q).filterMap fieldIdValue).head?

/-- Embedding of `DriveUtilities.extract_file_id_from_url` (`utilities.py` lines 50-87):
tries the four path patterns in the source's order
(`/file/d/`, `/folders/`, `id=`, `/drive/`), then falls back to the query string. -/
def extract_file_id_from_url (url : String) : Option String :=
  let pq := urlPathQuery url
  match searchLitId ('/' :: 'f' :: 'i' :: 'l' :: 'e' :: '/' :: 'd' :: '/' :: []) pq.1 with
  | some i => some i
  | none =>
  match searchLitId ('/' :: 'f' :: 'o' :: 'l' :: 'd' :: 'e' :: 'r' :: 's' :: '/' :: []) pq.1 with
  | some i => some i
  | none =>
  match searchLitId ('i' :: 'd' :: '=' :: []) pq.1 with
  | some i => some i
  | none =>
  match searchLitId ('/' :: 'd' :: 'r' :: 'i' :: 'v' :: 'e' :: '/' :: []) pq.1 with
  | some i => some i
  | none => parseQsId pq.2

/-- The extraction order asserted by the specification (file-by-id, folder,
generic drive segment, then `id=`), written down to be compared with the
source's `extract_file_id_from_url`; it differs from the source, which tries
`id=` before `/drive/`. -/
def extractId_specOrder (url : String) : Option String :=
  let pq := urlPathQuery url
  match searchLitId ('/' :: 'f' :: 'i' :: 'l' :: 'e' :: '/' :: 'd' :: '/' :: []) pq.1 with
  | some i => some i
  | none =>
  match searchLitId ('/' :: 'f' :: 'o' :: 'l' :: 'd' :: 'e' :: 'r' :: 's' :: '/' :: []) pq.1 with
  | some i => some i
  | none =>
  match searchLitId ('/' :: 'd' :: 'r' :: 'i' :: 'v' :: 'e' :: '/' :: []) pq.1 with
  | some i => some i
  | none =>
  match searchLitId ('i' :: 'd' :: '=' :: []) pq.1 with
  | some i => some i
  | none => parseQsId pq.2

/-! ## Pattern matching (`utilities.py`, `DriveUtilities.pattern_matches`)

`fnmatch.fnmatch` is modelled for a POSIX platform (where `os.path.normcase` is
the identity).  `re` is modelled as the subset actually expressible in this
repository's patterns: literal characters, escapes (`\d`, `\w`, `\s`, and
escaped punctuation), character classes, `.`, and the quantifiers `*`, `+`, `?`
(a trailing `?` lazy modifier is accepted; laziness does not change the boolean
result of the existence-of-a-match semantics used here).  Other metacharacters
are treated as unsupported by the model's parser. -/

/-- Body of a character class matched against one character: items are single
characters or `a-b` ranges (an inverted range matches nothing, as in
`fnmatch.translate`, which drops it). -/
def classBodyMatches : List Char → Char → Bool
  | a :: '-' :: b :: rest, c => (a ≤ c && c ≤ b) || classBodyMatches rest c
  | a :: rest, c => a = c || classBodyMatches rest c
  | [], _ => false

/-- Split at the first `]`: `(body, rest)`; `none` when unterminated. -/
def splitAtRB : List Char → Option (List Char × List Char)
  | [] => none
  | c :: t =>
    if c = ']' then some ([], t)
    else
      match splitAtRB t with
      | some p => some (c :: p.1, p.2)
      | none => none

theorem splitAtRB_length : ∀ {s : List Char} {p : List Char × List Char},
    splitAtRB s = some p → p.2.length < s.length := by
  intro s
  induction s with
  | nil => intro p h; simp [splitAtRB] at h
  | cons c t ih =>
    intro p h
    simp only [splitAtRB] at h
    split at h
    · simp at h
      subst h
      simp
    · split at h
      · rename_i q hq
        simp at h
        subst h
        have := ih hq
        simp
        omega
      · simp at h

/-- Strip a leading negation marker (`!` for glob classes, `^` for regex
classes): returns the negation flag and the class content. -/
def stripNeg (nc : Char) (s : List Char) : Bool × List Char :=
  match s with
  | [] => (false, [])
  | c :: t => if c = nc then (true, t) else (false, s)

theorem stripNeg_length {nc : Char} {s : List Char} :
    (stripNeg nc s).2.length ≤ s.length := by
  cases s with
  | nil => simp [stripNeg]
  | cons c t =>
    simp only [stripNeg]
    split <;> simp

/-- Parse a character class after the opening `[`: a leading negation marker
negates; a `]` immediately after that is a literal member; `none` when no
closing `]` exists. -/
def splitClassCore (nc : Char) (s : List Char) : Option (Bool × List Char × List Char) :=
  match (stripNeg nc s).2 with
  | [] => none
  | c :: t =>
    if c = ']' then
      match splitAtRB t with
      | some q => some ((stripNeg nc s).1, ']' :: q.1, q.2)
      | none => none
    else
      match splitAtRB (c :: t) with
      | some q => some ((stripNeg nc s).1, q.1, q.2)
      | none => none

theorem splitClassCore_length {nc : Char} {s : List Char}
    {t : Bool × List Char × List Char}
    (h : splitClassCore nc s = some t) : t.2.2.length < s.length := by
  have hs : (stripNeg nc s).2.length ≤ s.length := stripNeg_length
  unfold splitClassCore at h
  split at h
  · simp at h
  · rename_i c u hcu
    rw [hcu] at hs
    simp at hs
    split at h
    · split at h
      · rename_i q hq
        have := splitAtRB_length hq
        simp at h
        subst h
        simp
        omega
      · simp at h
    · split at h
      · rename_i q hq
        have := splitAtRB_length hq
        simp at h
        subst h
        simp at this ⊢
        omega
      · simp at h

/-- Glob character class after `[` (`fnmatch.translate` rules, `!` negates;
the `[` stays a literal when the class is unterminated). -/
def splitClassGlob (s : List Char) : Option (Bool × List Char × List Char) :=
  splitClassCore '!' s

/-- Model of `fnmatch.fnmatch(s, p)` on POSIX: glob `p` matched against the whole of `s`. -/
def globMatch (p s : List Char) : Bool :=
  match p with
  | [] => s.isEmpty
  | c :: ps =>
    if c = '*' then
      globMatch ps s ||
        (match s with
         | [] => false
         | _ :: s' => globMatch (c :: ps) s')
    else if c = '?' then
      match s with
      | [] => false
      | _ :: s' => globMatch ps s'
    else if c = '[' then
      match splitClassGlob ps with
      | some (neg, body, rest) =>
        (match s with
         | [] => false
         | x :: s' =>
           (if neg then !(classBodyMatches body x) else classBodyMatches body x)
             && globMatch rest s')
      | none =>
        match s with
        | [] => false
        | x :: s' => (x = '[') && globMatch ps s'
    else
      match s with
      | [] => false
      | x :: s' => (x = c) && globMatch ps s'
termination_by (s.length, p.length)

/-- The atoms of the modelled regex subset. -/
inductive RAtom where
  | lit (c : Char)
  | digit
  | wordc
  | spacec
  | anyc
  | cls (neg : Bool) (body : List Char)
deriving DecidableEq, Repr

/-- Quantifier attached to an atom. -/
inductive Quant where
  | one
  | opt
  | star
  | plus
deriving DecidableEq, Repr

/-- One quantified atom. -/
abbrev Piece := RAtom × Quant

/-- Whether one character satisfies an atom. -/
def atomMatches : RAtom → Char → Bool
  | .lit c, x => x = c
  | .digit, x => x.isDigit
  | .wordc, x => x.isAlpha || x.isDigit || x = '_'
  | .spacec, x =>
    x = ' ' || x = '\t' || x = '\n' || x = '\r' || x = '\x0b' || x = '\x0c'
  | .anyc, x => x ≠ '\n'
  | .cls neg body, x =>
    if neg then !(classBodyMatches body x) else classBodyMatches body x

/-- Regex character class after `[` (`re` rules: `^` negates); `none` when
unterminated, which `re.compile` reports as an error. -/
def splitClassRe (s : List Char) : Option (Bool × List Char × List Char) :=
  splitClassCore '^' s

theorem splitClassRe_length {s : List Char} {t : Bool × List Char × List Char}
    (h : splitClassRe s = some t) : t.2.2.length < s.length :=
  splitClassCore_length h

mutual

/-- Model of `re.compile` on the modelled subset: produce the piece list or a compile
error (`re.error` in Python). -/
def parseRegex : List Char → Except String (List Piece)
  | [] => .ok []
  | '\\' :: rest =>
    match rest with
    | [] => .error "bad escape"
    | c :: rest' =>
      if c = 'd' then parseAfterAtom RAtom.digit rest'
      else if c = 'w' then parseAfterAtom RAtom.wordc rest'
      else if c = 's' then parseAfterAtom RAtom.spacec rest'
      else if c.isAlpha || c.isDigit then .error "bad escape"
      else parseAfterAtom (RAtom.lit c) rest'
  | '[' :: rest =>
    match h : splitClassRe rest with
    | none => .error "unterminated character set"
    | some (neg, body, rest') => parseAfterAtom (RAtom.cls neg body) rest'
  | '.' :: rest => parseAfterAtom RAtom.anyc rest
  | c :: rest =>
    if c = '*' || c = '+' || c = '?' then .error "nothing to repeat"
    else if c = '(' || c = ')' || c = '|' || c = '{' || c = '}' || c = '^' || c = '$' then
      .error "metacharacter outside modelled subset"
    else parseAfterAtom (RAtom.lit c) rest
termination_by s => (s.length, 0)
decreasing_by
  all_goals simp_wf
  all_goals try omega
  all_goals
    (apply Prod.Lex.left
     have hlen := splitClassRe_length h
     simp at hlen
     omega)

/-- After an atom, read an optional quantifier and continue. -/
def parseAfterAtom (a : RAtom) : List Char → Except String (List Piece)
  | '*' :: rest => parseAfterQuant a Quant.star rest
  | '+' :: rest => parseAfterQuant a Quant.plus rest
  | '?' :: rest => parseAfterQuant a Quant.opt rest
  | rest =>
    match parseRegex rest with
    | .ok ps => .ok ((a, Quant.one) :: ps)
    | .error e => .error e
termination_by s => (s.length, 1)
decreasing_by all_goals simp_wf <;> omega

/-- After a quantifier: accept a lazy `?` modifier, reject a double quantifier. -/
def parseAfterQuant (a : RAtom) (q : Quant) : List Char → Except String (List Piece)
  | '?' :: rest =>
    match parseRegex rest with
    | .ok ps => .ok ((a, q) :: ps)
    | .error e => .error e
  | '*' :: _ => .error "multiple repeat"
  | '+' :: _ => .error "multiple repeat"
  | rest =>
    match parseRegex rest with
    | .ok ps => .ok ((a, q) :: ps)
    | .error e => .error e
termination_by s => (s.length, 1)
decreasing_by all_goals simp_wf <;> omega

end

/-- Does the piece list match some prefix of `s`?  This is `re.match`'s
anchored-at-start, not-anchored-at-end semantics (the empty piece list matches
the empty prefix of anything). -/
def matchPieces (ps : List Piece) (s : List Char) : Bool :=
  match ps with
  | [] => true
  | (a, q) :: rest =>
    match q with
    | .one =>
      (match s with
       | [] => false
       | c :: s' => atomMatches a c && matchPieces rest s')
    | .opt =>
      matchPieces rest s ||
        (match s with
         | [] => false
         | c :: s' => atomMatches a c && matchPieces rest s')
    | .plus =>
      (match s with
       | [] => false
       | c :: s' => atomMatches a c && matchPieces ((a, Quant.star) :: rest) s')
    | .star =>
      matchPieces rest s ||
        (match s with
         | [] => false
         | c :: s' => atomMatches a c && matchPieces ((a, Quant.star) :: rest) s')
termination_by (s.length, ps.length)

/-- Embedding of `DriveUtilities.pattern_matches` (`utilities.py` lines 109-132): if the
pattern starts with `r:`, the remainder is compiled as a regex and matched with
`re.match` (prefix anchored); a compile error falls through to glob matching of
the original, unstripped pattern; any other pattern is glob matched. -/
def pattern_matches (filename pattern : String) : Bool :=
  match pattern.data with
  | 'r' :: ':' :: rexp =>
    (match parseRegex rexp with
     | .ok pieces => matchPieces pieces filename.data
     | .error _ => globMatch pattern.data filename.data)
  | _ => globMatch pattern.data filename.data

/-! ## Retry executor (`drive_manager.py`, `DriveManager._execute_with_retry`)

A remote request is an oracle `Nat → ApiOutcome` giving the outcome of the
k-th invocation (0-indexed).  A raised `HttpError` is `ApiOutcome.err status`.
The model records the returned/raised value, the number of invocations, and the
sequence of sleep durations, so the claims about attempt counts and backoff can
be read off one structure.  `max_retries` comes from configuration and is an
arbitrary integer, as in Python. -/

/-- Outcome of a single `request.execute()` call. -/
inductive ApiOutcome where
  | ok (resp : Nat)
  | err (status : Nat)
deriving DecidableEq, Repr

/-- The statuses retried in `_execute_with_retry` (line 52). -/
def retryableStatus (s : Nat) : Bool :=
  s = 429 || s = 500 || s = 503

/-- What a `_execute_with_retry` run did: `result` is `Except.error status` for
a raised `HttpError`, `Except.ok none` for Python's implicit `return None`
(loop never entered), `Except.ok (some v)` for a returned response;
`invocations` counts `request.execute()` calls; `sleeps` lists the
`time.sleep` durations in order. -/
structure RetryOutcome where
  result : Except Nat (Option Nat)
  invocations : Nat
  sleeps : List Nat
deriving Repr

/-- The `while retry_count < self.max_retries` loop of `_execute_with_retry`
(lines 47-60), entered with the given `retry_count` and invocation count. -/
def execRetryAux (request : Nat → ApiOutcome) (maxRetries : Int) (retryDelay : Nat)
    (retryCount invoked : Nat) (sleeps : List Nat) : RetryOutcome :=
  if h : (retryCount : Int) < maxRetries then
    match request invoked with
    | .ok v => ⟨.ok (some v), invoked + 1, sleeps⟩
    | .err s =>
      if retryableStatus s then
        if ((retryCount : Int) + 1) = maxRetries then ⟨.error s, invoked + 1, sleeps⟩
        else
          execRetryAux request maxRetries retryDelay (retryCount + 1) (invoked + 1)
            (sleeps ++ [2 ^ (retryCount + 1) * retryDelay])
      else ⟨.error s, invoked + 1, sleeps⟩
  else ⟨.ok none, invoked, sleeps⟩
termination_by (maxRetries - retryCount).toNat
decreasing_by omega

/-- Embedding of `DriveManager._execute_with_retry` (lines 34-60). -/
def execute_with_retry (request : Nat → ApiOutcome) (maxRetries : Int)
    (retryDelay : Nat) : RetryOutcome :=
  execRetryAux request maxRetries retryDelay 0 0 []

/-! ## Paginated listing (`drive_manager.py`, `DriveManager.list_folder_contents`)

The remote store's paginated responses are modelled as a list of pages: the
RPC for continuation token `i` returns page `i` and the next token `i + 1`
when more pages exist, no token otherwise (a store with no items is `[]`:
its single response carries no files and no token).  Items are natural
numbers standing for opaque file records. -/

/-- The `while True` pagination loop of `list_folder_contents` (lines 198-210),
returning the accumulated items and the number of list RPCs issued. -/
def listFolderAux (pages : List (List Nat)) (i rpcs : Nat) (acc : List Nat) :
    List Nat × Nat :=
  let acc2 := acc ++ pages.getD i []
  if h : i + 1 < pages.length then
    listFolderAux pages (i + 1) (rpcs + 1) acc2
  else (acc2, rpcs + 1)
termination_by pages.length - i

/-- Embedding of `DriveManager.list_folder_contents` (lines 185-212). -/
def list_folder_contents (pages : List (List Nat)) : List Nat × Nat :=
  listFolderAux pages 0 0 []

/-! ## Batch rename (`drive_manager.py`, `DriveManager.batch_rename`)

Folder contents are the listed item names; the update RPC is an oracle keyed
by the item's (old) name.  Python's falsy test `not prefix` is true for both
`None` and the empty string, modelled by `falsyOpt`. -/

/-- Python truthiness of an optional string: `None` and `""` are falsy. -/
def falsyOpt (v : Option String) : Bool :=
  match v with
  | none => true
  | some s => s = ""

/-- Model of `os.path.splitext` on a bare file name: split at the last dot, except that
a name whose characters before that dot are all dots (e.g. `".bashrc"`) has no
extension.  `splitDotLast` returns the split at the last dot when one exists. -/
def splitDotLast : List Char → Option (List Char × List Char)
  | [] => none
  | c :: rest =>
    match splitDotLast rest with
    | some p => some (c :: p.1, p.2)
    | none => if c = '.' then some ([], c :: rest) else none

/-- Model of `os.path.splitext(name)` for names without path separators. -/
def splitext (name : String) : String × String :=
  match splitDotLast name.data with
  | none => (name, "")
  | some p =>
    if p.1.any (fun c => c ≠ '.') then (String.mk p.1, String.mk p.2)
    else (name, "")

/-- The composed name `f"{prefix or ''}{name}{suffix or ''}{ext}"` of
`batch_rename` line 237 (`pre`/`suf` model the Python prefix/suffix options). -/
def new_name_of (pre suf : Option String) (name : String) : String :=
  let se := splitext name
  (pre.getD "") ++ se.1 ++ (suf.getD "") ++ se.2

/-- The per-item loop of `batch_rename` (lines 234-250): matching items are
renamed through the update RPC; an RPC failure is logged and skipped; the
successful `(old_name, new_name)` pairs are accumulated in listing order. -/
def renameLoop (renameRpc : String → Except String Unit) (pattern : String)
    (pre suf : Option String) : List String → List (String × String)
  | [] => []
  | name :: rest =>
    if pattern_matches name pattern then
      match renameRpc name with
      | .ok _ => (name, new_name_of pre suf name) :: renameLoop renameRpc pattern pre suf rest
      | .error _ => renameLoop renameRpc pattern pre suf rest
    else renameLoop renameRpc pattern pre suf rest

/-- Embedding of `DriveManager.batch_rename` (lines 214-251): raises `ValueError` when both
prefix and suffix are falsy, otherwise renames every matching listed item. -/
def batch_rename (renameRpc : String → Except String Unit) (items : List String)
    (pattern : String) (pre suf : Option String) :
    Except String (List (String × String)) :=
  if falsyOpt pre && falsyOpt suf then
    .error "Either prefix or suffix must be specified"
  else .ok (renameLoop renameRpc pattern pre suf items)

/-! ## Recursive folder copy (`drive_manager.py`, `DriveManager._copy_folder`)

The per-child loop of `_copy_folder` (lines 180-181) calls
`copy_drive_item(item, new_folder_id)` with no `try` around it;
`copy_drive_item` re-raises every exception (lines 122-124).  The recursive
child copy is the oracle `copyItem`; children are the listed items. -/

/-- The child-copy loop of `_copy_folder`: returns the ids of the successfully
copied children (in order) and the first propagated error, if any.  Children
after a failing one are never attempted. -/
def copyFolderChildren (copyItem : Nat → Except String String) :
    List Nat → List String × Option String
  | [] => ([], none)
  | x :: xs =>
    match copyItem x with
    | .ok nid =>
      let p := copyFolderChildren copyItem xs
      (nid :: p.1, p.2)
    | .error e => ([], some e)

/-- Embedding of `DriveManager._copy_folder` (lines 151-183) after the new folder was
created with id `newFolderId` and the source children listed as `children`:
the whole call raises as soon as one child copy raises. -/
def copy_folder (newFolderId : String) (children : List Nat)
    (copyItem : Nat → Except String String) : Except String String :=
  match (copyFolderChildren copyItem children).2 with
  | some e => .error e
  | none => .ok newFolderId

/-! ## Batch command boundary (`drive_manager.py`, `DriveManager.execute_batch_command`)

A command dictionary is a record of optional fields (`command.get(k)` reads a
field; `command[k]` on a missing field raises `KeyError`, modelled by
`getField`).  The dispatched Drive operations are oracles in `DriveOps`.
`Except.error` models an exception propagating out of
`execute_batch_command`; note the missing/empty-`action` check
(lines 320-322) sits before the `try` block. -/

/-- A parsed entry of `batch_commands.json` (`pre`/`suf` model the prefix and
suffix fields). -/
structure BatchCommand where
  action : Option String := none
  source : Option String := none
  destination : Option String := none
  folder_id : Option String := none
  target : Option String := none
  pattern : Option String := none
  pre : Option String := none
  suf : Option String := none
  source_id : Option String := none
deriving DecidableEq, Repr

/-- Model of `command[key]`: `KeyError` when the field is absent. -/
def getField (v : Option String) (key : String) : Except String String :=
  match v with
  | some s => .ok s
  | none => .error ("KeyError: " ++ key)

/-- The `details` mapping of a command result. -/
inductive CmdDetails where
  | empty
  | new_id (i : String)
  | renamed_items (l : List (String × String))
  | deleted_items (l : List String)
  | copied_files (l : List String)
deriving DecidableEq, Repr

/-- The result dictionary built by `execute_batch_command`. -/
structure CommandResult where
  action : String
  status : String
  details : CmdDetails
  error : Option String
deriving DecidableEq, Repr

/-- The Drive operations dispatched to by `execute_batch_command`, as oracles
(each may raise, returning `Except.error`). -/
structure DriveOps where
  copy_drive_item : String → Option String → Except String String
  batch_rename_op : String → String → Option String → Option String →
    Except String (List (String × String))
  delete_items : String → String → Except String (List String)
  copy_to_subfolders : String → String → Except String (List String)

/-- Embedding of `DriveManager.parse_shared_link` (lines 62-78): `ValueError` when no id
can be extracted. -/
def parse_shared_link (url : String) : Except String String :=
  match extract_file_id_from_url url with
  | some i => .ok i
  | none => .error "Invalid Google Drive URL or could not extract file ID"

/-- The body of the `try` block of `execute_batch_command` (lines 330-358):
required-field extraction, link resolution, and the dispatched operation,
any of which may raise (`Except.error`). -/
def dispatch_command (ops : DriveOps) (cmd : BatchCommand) (a : String) :
    Except String CmdDetails :=
  if a = "copy" then do
    let src ← getField cmd.source "source"
    let sid ← parse_shared_link src
    let nid ← ops.copy_drive_item sid cmd.destination
    pure (CmdDetails.new_id nid)
  else if a = "rename" then do
    let fid ← getField cmd.folder_id "folder_id"
    let pat ← getField cmd.target "target"
    let r ← ops.batch_rename_op fid pat cmd.pre cmd.suf
    pure (CmdDetails.renamed_items r)
  else if a = "delete" then do
    let fid ← getField cmd.folder_id "folder_id"
    let pat ← getField cmd.pattern "pattern"
    let r ← ops.delete_items fid pat
    pure (CmdDetails.deleted_items r)
  else if a = "copy_to_subfolders" then do
    let sid ← getField cmd.source_id "source_id"
    let fid ← getField cmd.folder_id "folder_id"
    let r ← ops.copy_to_subfolders sid fid
    pure (CmdDetails.copied_files r)
  else .error ("Unknown action: " ++ a)

/-- Embedding of `DriveManager.execute_batch_command` (lines 310-365).  The missing-action
`ValueError` is raised before the `try` block and therefore propagates
(`Except.error`); everything raised inside the `try` is converted to a
returned result with status `error`. -/
def execute_batch_command (ops : DriveOps) (cmd : BatchCommand) :
    Except String CommandResult :=
  if falsyOpt cmd.action then .error "Command must specify an action"
  else
    match dispatch_command ops cmd (cmd.action.getD "") with
    | .ok d => .ok ⟨cmd.action.getD "", "success", d, none⟩
    | .error e => .ok ⟨cmd.action.getD "", "error", CmdDetails.empty, some e⟩

/-- Drive operation oracles that always fail remotely; used to exercise the
error boundary on concrete inputs. -/
def failingOps : DriveOps where
  copy_drive_item := fun _ _ => .error "remote failure"
  batch_rename_op := fun _ _ _ _ => .error "remote failure"
  delete_items := fun _ _ => .error "remote failure"
  copy_to_subfolders := fun _ _ => .error "remote failure"

/-! ## Supporting lemmas -/

theorem pattern_matches_regex_ok {name pat : String} {rexp : List Char}
    {pieces : List Piece} (hr : pat.data = 'r' :: ':' :: rexp)
    (hok : parseRegex rexp = Except.ok pieces) :
    pattern_matches name pat = matchPieces pieces name.data := by
  unfold pattern_matches
  split
  · rename_i rexp2 heq
    rw [hr] at heq
    simp at heq
    subst heq
    rw [hok]
  · rename_i hne
    exact absurd hr (hne rexp)

theorem pattern_matches_regex_err {name pat : String} {rexp : List Char}
    {e : String} (hr : pat.data = 'r' :: ':' :: rexp)
    (herr : parseRegex rexp = Except.error e) :
    pattern_matches name pat = globMatch pat.data name.data := by
  unfold pattern_matches
  split
  · rename_i rexp2 heq
    rw [hr] at heq
    simp at heq
    subst heq
    rw [herr]
  · rename_i hne
    exact absurd hr (hne rexp)

theorem pattern_matches_not_regex {name pat : String}
    (h : ∀ r2 : List Char, pat.data ≠ 'r' :: ':' :: r2) :
    pattern_matches name pat = globMatch pat.data name.data := by
  unfold pattern_matches
  split
  · rename_i rexp2 heq
    exact absurd heq (h rexp2)
  · rfl

/-! ## Claims about URL extraction -/

/-- Claim C2, counterexample: the claim puts the generic `/drive/` segment
pattern before the query-parameter form `id=`, but the source tries `id=`
third and `/drive/` fourth; on the URL `https://host/drive/xid=Q` the source
extracts `Q` while the claim's order would extract `xid`. -/
theorem C2_counterexample_pattern_order :
    extract_file_id_from_url "https://host/drive/xid=Q" = some "Q"
    ∧ extractId_specOrder "https://host/drive/xid=Q" = some "xid" := by
  constructor <;> rfl

/-- Claim C2, amended: `extract_file_id_from_url` tries the path-shaped
patterns in the order file-by-id segment, folder segment, query-parameter
form `id=`, then generic drive segment, and finally falls back to the URL's
query string; it returns the first successful match and `none` when nothing
matches, with path-based patterns taking precedence over the query-string
fallback. -/
theorem C2_extract_id_amended :
    extract_file_id_from_url "https://host/file/d/XYZ/view" = some "XYZ"
    ∧ extract_file_id_from_url "https://host/drive/folders/ABC" = some "ABC"
    ∧ extract_file_id_from_url "https://host/open?id=QQQ" = some "QQQ"
    ∧ extract_file_id_from_url "https://host/nomatch" = none
    ∧ extract_file_id_from_url "https://host/file/d/AAA/x?id=BBB" = some "AAA"
    ∧ extract_file_id_from_url "https://host/drive/xid=Q" = some "Q" := by
  refine ⟨?_, ?_, ?_, ?_, ?_, ?_⟩ <;> rfl

/-! ## Claims about pattern matching -/

/-- Claim C5: a pattern beginning with the marker `r:` is matched as a regex
anchored at position 0 of the name (prefix semantics, not full-string and not
substring); any other pattern is a shell glob matched against the whole name.
Witnessed by the spec's examples, including a prefix-only regex match. -/
theorem C5_pattern_dispatch
    (name pat : String) (rexp : List Char) (pieces : List Piece)
    (hr : pat.data = 'r' :: ':' :: rexp) (hok : parseRegex rexp = Except.ok pieces)
    (name2 pat2 : String) (hng : ∀ r2 : List Char, pat2.data ≠ 'r' :: ':' :: r2) :
    pattern_matches name pat = matchPieces pieces name.data
    ∧ pattern_matches name2 pat2 = globMatch pat2.data name2.data
    ∧ pattern_matches "report.docx" "*.docx" = true
    ∧ pattern_matches "report.txt" "*.docx" = false
    ∧ pattern_matches "abc123" "r:abc\\d+" = true
    ∧ pattern_matches "xabc123" "r:abc\\d+" = false
    ∧ pattern_matches "abc12x" "r:abc\\d+" = true := by
  refine ⟨pattern_matches_regex_ok hr hok, pattern_matches_not_regex hng, ?_, ?_, ?_, ?_, ?_⟩
  all_goals
    simp [pattern_matches, parseRegex, parseAfterAtom, parseAfterQuant, matchPieces,
      atomMatches, globMatch, splitClassGlob, splitClassCore, stripNeg, splitAtRB]

theorem C5_pattern_dispatch_witness :
    pattern_matches "abc123" "r:abc\\d+"
        = matchPieces [(RAtom.lit 'a', Quant.one), (RAtom.lit 'b', Quant.one),
            (RAtom.lit 'c', Quant.one), (RAtom.digit, Quant.plus)] "abc123".data
    ∧ pattern_matches "report.docx" "*.docx" = globMatch "*.docx".data "report.docx".data
    ∧ pattern_matches "report.docx" "*.docx" = true
    ∧ pattern_matches "report.txt" "*.docx" = false
    ∧ pattern_matches "abc123" "r:abc\\d+" = true
    ∧ pattern_matches "xabc123" "r:abc\\d+" = false
    ∧ pattern_matches "abc12x" "r:abc\\d+" = true :=
  C5_pattern_dispatch "abc123" "r:abc\\d+"
    ['a', 'b', 'c', '\\', 'd', '+']
    [(RAtom.lit 'a', Quant.one), (RAtom.lit 'b', Quant.one),
      (RAtom.lit 'c', Quant.one), (RAtom.digit, Quant.plus)]
    (by rfl)
    (by simp [parseRegex, parseAfterAtom, parseAfterQuant])
    "report.docx" "*.docx"
    (by intro r2 h; simp at h)

/-- Claim C6: a malformed `r:` regex does not raise: the compile error is
swallowed and the function falls through to glob evaluation of the original,
unstripped pattern (shown concretely for `r:[abc`, whose glob form matches the
name `r:[abc` literally).  A valid `r:` regex that merely fails to match
returns false with no glob fallback (shown for pattern `r:abc\d+` on the name
`r:abc\d+`, which the glob fallback would have matched). -/
theorem C6_malformed_regex_fallback
    (name pat : String) (rexp : List Char) (e : String)
    (hr : pat.data = 'r' :: ':' :: rexp) (herr : parseRegex rexp = Except.error e)
    (name3 pat3 : String) (rexp3 : List Char) (pieces3 : List Piece)
    (hr3 : pat3.data = 'r' :: ':' :: rexp3)
    (hok3 : parseRegex rexp3 = Except.ok pieces3) :
    pattern_matches name pat = globMatch pat.data name.data
    ∧ pattern_matches name3 pat3 = matchPieces pieces3 name3.data
    ∧ parseRegex "[abc".data = Except.error "unterminated character set"
    ∧ pattern_matches "r:[abc" "r:[abc" = true
    ∧ pattern_matches "r:abc\\d+" "r:abc\\d+" = false
    ∧ globMatch "r:abc\\d+".data "r:abc\\d+".data = true := by
  refine ⟨pattern_matches_regex_err hr herr, pattern_matches_regex_ok hr3 hok3,
    ?_, ?_, ?_, ?_⟩
  all_goals
    simp [pattern_matches, parseRegex, parseAfterAtom, parseAfterQuant, matchPieces,
      atomMatches, globMatch, splitClassRe, splitClassGlob, splitClassCore, stripNeg,
      splitAtRB]

theorem C6_malformed_regex_fallback_witness :
    pattern_matches "r:[abc" "r:[abc" = globMatch "r:[abc".data "r:[abc".data
    ∧ pattern_matches "zzz" "r:abc\\d+"
        = matchPieces [(RAtom.lit 'a', Quant.one), (RAtom.lit 'b', Quant.one),
            (RAtom.lit 'c', Quant.one), (RAtom.digit, Quant.plus)] "zzz".data
    ∧ parseRegex "[abc".data = Except.error "unterminated character set"
    ∧ pattern_matches "r:[abc" "r:[abc" = true
    ∧ pattern_matches "r:abc\\d+" "r:abc\\d+" = false
    ∧ globMatch "r:abc\\d+".data "r:abc\\d+".data = true :=
  C6_malformed_regex_fallback "r:[abc" "r:[abc" ['[', 'a', 'b', 'c']
    "unterminated character set" (by rfl)
    (by simp [parseRegex, splitClassRe, splitClassCore, stripNeg, splitAtRB])
    "zzz" "r:abc\\d+" ['a', 'b', 'c', '\\', 'd', '+']
    [(RAtom.lit 'a', Quant.one), (RAtom.lit 'b', Quant.one),
      (RAtom.lit 'c', Quant.one), (RAtom.digit, Quant.plus)]
    (by rfl)
    (by simp [parseRegex, parseAfterAtom, parseAfterQuant])

/-! ## Claims about the batch command boundary -/

/-- Claim C1, counterexample: a command dictionary with no `action` field makes
`execute_batch_command` raise `ValueError` to its caller (the missing-action
check sits before the `try` block), so the function does not convert every
required-field error into a returned result. -/
theorem C1_counterexample_missing_action :
    execute_batch_command failingOps {} = Except.error "Command must specify an action"
    ∧ execute_batch_command failingOps { action := some "" }
        = Except.error "Command must specify an action" := by
  constructor <;> rfl

/-- Claim C1, amended: for every command that carries a non-empty `action`,
`execute_batch_command` returns a result (never raises): any error arising
inside the dispatch boundary — missing required field, invalid URL, unknown
action, remote error — is converted into a result with status `error` and an
error message, and a successful dispatch yields status `success`.  Only the
missing/empty-`action` check, which runs before the boundary, raises to the
caller (where `GDriveTool.execute_batch`, lines 196-212, catches it, so a
batch still cannot be aborted by one command). -/
theorem C1_boundary_amended (ops : DriveOps) (cmd : BatchCommand) (a : String)
    (ha : cmd.action = some a) (hne : a ≠ "") :
    (∃ r : CommandResult,
      execute_batch_command ops cmd = Except.ok r ∧ r.action = a
      ∧ ((r.status = "success" ∧ r.error = none)
          ∨ (r.status = "error" ∧ ∃ msg, r.error = some msg)))
    ∧ execute_batch_command failingOps { action := some "rename" }
        = Except.ok ⟨"rename", "error", CmdDetails.empty, some "KeyError: folder_id"⟩
    ∧ execute_batch_command failingOps { action := some "mystery" }
        = Except.ok ⟨"mystery", "error", CmdDetails.empty, some "Unknown action: mystery"⟩
    ∧ execute_batch_command failingOps
        { action := some "copy", source := some "https://host/file/d/XY/view" }
        = Except.ok ⟨"copy", "error", CmdDetails.empty, some "remote failure"⟩ := by
  refine ⟨?_, by rfl, by rfl, by rfl⟩
  have hf : falsyOpt cmd.action = false := by
    simp [falsyOpt, ha, hne]
  unfold execute_batch_command
  rw [hf]
  simp only [Bool.false_eq_true, if_false, ha, Option.getD_some]
  cases hd : dispatch_command ops cmd a with
  | ok d => exact ⟨⟨a, "success", d, none⟩, by simp⟩
  | error e => exact ⟨⟨a, "error", CmdDetails.empty, some e⟩, by simp⟩

theorem C1_boundary_amended_witness :
    (∃ r : CommandResult,
      execute_batch_command failingOps
          { action := some "delete", folder_id := some "F", pattern := some "*" }
        = Except.ok r ∧ r.action = "delete"
      ∧ ((r.status = "success" ∧ r.error = none)
          ∨ (r.status = "error" ∧ ∃ msg, r.error = some msg)))
    ∧ execute_batch_command failingOps { action := some "rename" }
        = Except.ok ⟨"rename", "error", CmdDetails.empty, some "KeyError: folder_id"⟩
    ∧ execute_batch_command failingOps { action := some "mystery" }
        = Except.ok ⟨"mystery", "error", CmdDetails.empty, some "Unknown action: mystery"⟩
    ∧ execute_batch_command failingOps
        { action := some "copy", source := some "https://host/file/d/XY/view" }
        = Except.ok ⟨"copy", "error", CmdDetails.empty, some "remote failure"⟩ :=
  C1_boundary_amended failingOps
    { action := some "delete", folder_id := some "F", pattern := some "*" }
    "delete" (by rfl) (by decide)

/-! ## Claims about the recursive folder copy -/

theorem copyFolderChildren_ok_prefix (copyItem : Nat → Except String String)
    (f : Nat → String) :
    ∀ (pre : List Nat) (bad : Nat) (post : List Nat) (e : String),
    (∀ x ∈ pre, copyItem x = Except.ok (f x)) → copyItem bad = Except.error e →
    copyFolderChildren copyItem (pre ++ bad :: post) = (pre.map f, some e) := by
  intro pre
  induction pre with
  | nil =>
    intro bad post e hpre hbad
    simp [copyFolderChildren, hbad]
  | cons x xs ih =>
    intro bad post e hpre hbad
    have hx := hpre x (by simp)
    simp only [List.cons_append, copyFolderChildren, hx, List.append_eq]
    rw [ih bad post e (fun y hy => hpre y (by simp [hy])) hbad]
    simp

/-- Claim C8: inside `_copy_folder`, per-child failures are not caught: if
copying one child fails, the error propagates and aborts the whole
folder-copy call; the children before the failing one were copied, the
failing one and everything after it contribute nothing (no partial-success
list is returned — the call raises). -/
theorem C8_copy_folder_abort (copyItem : Nat → Except String String)
    (f : Nat → String) (pre : List Nat) (bad : Nat) (post : List Nat)
    (e : String) (nfid : String)
    (hpre : ∀ x ∈ pre, copyItem x = Except.ok (f x))
    (hbad : copyItem bad = Except.error e) :
    copy_folder nfid (pre ++ bad :: post) copyItem = Except.error e
    ∧ copyFolderChildren copyItem (pre ++ bad :: post) = (pre.map f, some e) := by
  have h := copyFolderChildren_ok_prefix copyItem f pre bad post e hpre hbad
  exact ⟨by simp [copy_folder, h], h⟩

theorem C8_copy_folder_abort_witness :
    copy_folder "NF" [1, 2, 3]
        (fun x => if x = 2 then Except.error "boom" else Except.ok (toString x))
      = Except.error "boom"
    ∧ copyFolderChildren
        (fun x => if x = 2 then Except.error "boom" else Except.ok (toString x))
        [1, 2, 3]
      = (["1"], some "boom") :=
  C8_copy_folder_abort
    (fun x => if x = 2 then Except.error "boom" else Except.ok (toString x))
    toString [1] 2 [3] "boom" "NF" (by intro x hx; simp at hx; subst hx; rfl) (by rfl)

/-! ## Claims about batch rename -/

/-- Boolean success test of an `Except` result. -/
def isOkB {e a : Type} (r : Except e a) : Bool :=
  match r with
  | .ok _ => true
  | .error _ => false

theorem renameLoop_spec (rpc : String → Except String Unit) (pattern : String)
    (pre suf : Option String) :
    ∀ items : List String,
    renameLoop rpc pattern pre suf items
      = (items.filter (fun n => pattern_matches n pattern && isOkB (rpc n))).map
          (fun n => (n, new_name_of pre suf n)) := by
  intro items
  induction items with
  | nil => simp [renameLoop]
  | cons n rest ih =>
    by_cases hm : pattern_matches n pattern
    · cases hr : rpc n with
      | ok u => simp [renameLoop, hm, hr, isOkB, ih, List.filter_cons]
      | error e => simp [renameLoop, hm, hr, isOkB, ih, List.filter_cons]
    · simp [renameLoop, hm, ih, List.filter_cons]

/-- Claim C9: `batch_rename` composes each matched item's new name as
prefix + stem + suffix + extension, and isolates per-item RPC failures: an
item whose rename RPC fails is excluded from the returned pairs but does not
stop the remaining items, so the result is exactly the successfully renamed
`(oldName, newName)` pairs in listing order. -/
theorem C9_batch_rename (rpc : String → Except String Unit) (items : List String)
    (pattern : String) (pre suf : Option String)
    (hv : (falsyOpt pre && falsyOpt suf) = false) :
    batch_rename rpc items pattern pre suf
      = Except.ok
          ((items.filter (fun n => pattern_matches n pattern && isOkB (rpc n))).map
            (fun n => (n, new_name_of pre suf n)))
    ∧ batch_rename (fun _ => Except.ok ()) ["a.txt", "b.txt"] "*.txt" (some "X_") none
      = Except.ok [("a.txt", "X_a.txt"), ("b.txt", "X_b.txt")]
    ∧ batch_rename (fun n => if n = "b.txt" then Except.error "rpc down" else Except.ok ())
        ["a.txt", "b.txt", "c.txt"] "*.txt" (some "X_") none
      = Except.ok [("a.txt", "X_a.txt"), ("c.txt", "X_c.txt")] := by
  refine ⟨?_, ?_, ?_⟩
  · rw [batch_rename, hv]
    simp only [Bool.false_eq_true, if_false]
    rw [renameLoop_spec]
  all_goals
    rw [batch_rename]
    simp only [falsyOpt, Bool.and_eq_true]
    norm_num
    simp [renameLoop, new_name_of, splitext, splitDotLast, pattern_matches, globMatch,
      splitClassGlob, splitClassCore, stripNeg, splitAtRB]

theorem C9_batch_rename_witness :
    batch_rename (fun n => if n = "b.txt" then Except.error "rpc down" else Except.ok ())
        ["a.txt", "b.txt", "c.txt"] "*.txt" (some "X_") none
      = Except.ok
          ((["a.txt", "b.txt", "c.txt"].filter
              (fun n => pattern_matches n "*.txt"
                && isOkB (if n = "b.txt" then Except.error "rpc down" else Except.ok ()))).map
            (fun n => (n, new_name_of (some "X_") none n)))
    ∧ batch_rename (fun _ => Except.ok ()) ["a.txt", "b.txt"] "*.txt" (some "X_") none
      = Except.ok [("a.txt", "X_a.txt"), ("b.txt", "X_b.txt")]
    ∧ batch_rename (fun n => if n = "b.txt" then Except.error "rpc down" else Except.ok ())
        ["a.txt", "b.txt", "c.txt"] "*.txt" (some "X_") none
      = Except.ok [("a.txt", "X_a.txt"), ("c.txt", "X_c.txt")] :=
  C9_batch_rename
    (fun n => if n = "b.txt" then Except.error "rpc down" else Except.ok ())
    ["a.txt", "b.txt", "c.txt"] "*.txt" (some "X_") none (by rfl)

/-! ## Claims about the retry executor -/

/-- The backoff sleep sequence produced by `m` consecutive retryable failures
entered at retry count `rc`: `2^(rc+1)*d, 2^(rc+2)*d, ...`. -/
def backoffSleeps (d rc : Nat) : Nat → List Nat
  | 0 => []
  | m + 1 => 2 ^ (rc + 1) * d :: backoffSleeps d (rc + 1) m

theorem backoffSleeps_eq_map (d : Nat) :
    ∀ (m rc : Nat),
    backoffSleeps d rc m = (List.range m).map (fun k => 2 ^ (rc + 1 + k) * d) := by
  intro m
  induction m with
  | zero => intro rc; simp [backoffSleeps]
  | succ m ih =>
    intro rc
    rw [backoffSleeps, ih (rc + 1), List.range_succ_eq_map, List.map_cons, List.map_map]
    congr 1
    all_goals try norm_num
    all_goals
      intro a ha
      exact Or.inl (by omega)

theorem execRetryAux_allFail (s d : Nat) (hs : retryableStatus s = true) (mr : Int) :
    ∀ (n rc inv : Nat) (sl : List Nat), (rc : Int) < mr → (mr - rc).toNat = n →
    execRetryAux (fun _ => ApiOutcome.err s) mr d rc inv sl
      = ⟨Except.error s, inv + n, sl ++ backoffSleeps d rc (n - 1)⟩ := by
  intro n
  induction n with
  | zero => intro rc inv sl hlt hn; omega
  | succ m ih =>
    intro rc inv sl hlt hn
    unfold execRetryAux
    rw [dif_pos hlt]
    simp only [hs, if_true]
    by_cases heq : ((rc : Int) + 1) = mr
    · rw [if_pos heq]
      have hm : m = 0 := by omega
      subst hm
      simp [backoffSleeps]
    · rw [if_neg heq]
      have hlt2 : ((rc + 1 : Nat) : Int) < mr := by push_cast; omega
      have hn2 : (mr - (rc + 1 : Nat)).toNat = m := by push_cast; omega
      rw [ih (rc + 1) (inv + 1) (sl ++ [2 ^ (rc + 1) * d]) hlt2 hn2]
      have hm1 : 1 ≤ m := by omega
      obtain ⟨m2, rfl⟩ : ∃ m2, m = m2 + 1 := ⟨m - 1, by omega⟩
      congr 1
      · omega
      · simp [backoffSleeps]

theorem execRetryAux_invocations_le (request : Nat → ApiOutcome) (mr : Int) (d : Nat) :
    ∀ (n rc inv : Nat) (sl : List Nat), (mr - rc).toNat ≤ n →
    (execRetryAux request mr d rc inv sl).invocations ≤ inv + (mr - rc).toNat := by
  intro n
  induction n with
  | zero =>
    intro rc inv sl hn
    unfold execRetryAux
    rw [dif_neg (by omega)]
    simp
  | succ m ih =>
    intro rc inv sl hn
    unfold execRetryAux
    by_cases hlt : (rc : Int) < mr
    · rw [dif_pos hlt]
      cases hreq : request inv with
      | ok v => simp; omega
      | err st =>
        by_cases hrt : retryableStatus st = true
        · simp only [hrt, if_true]
          by_cases heq : ((rc : Int) + 1) = mr
          · rw [if_pos heq]
            simp
            omega
          · rw [if_neg heq]
            have hle : (mr - ((rc + 1 : Nat) : Int)).toNat ≤ m := by push_cast; omega
            have := ih (rc + 1) (inv + 1) (sl ++ [2 ^ (rc + 1) * d]) hle
            push_cast at this ⊢
            omega
        · simp only [Bool.not_eq_true] at hrt
          simp only [hrt, Bool.false_eq_true, if_false]
          simp
          omega
    · rw [dif_neg hlt]
      simp

/-- Claim C3: `_execute_with_retry` makes at most `max_retries` invocations of
the wrapped request.  A request that fails retryably exactly twice and then
succeeds is, with `max_retries = 3`, invoked exactly 3 times and its success
value returned; a request that always fails retryably is, with
`max_retries = N ≥ 1`, invoked exactly `N` times and the last error raised;
a request whose first invocation fails non-retryably is invoked exactly once,
the error raised immediately with no sleep. -/
theorem C3_retry_attempt_counts
    (d v N s sB M : Nat) (req2 reqB : Nat → ApiOutcome)
    (h0 : req2 0 = ApiOutcome.err 429) (h1 : req2 1 = ApiOutcome.err 500)
    (h2 : req2 2 = ApiOutcome.ok v)
    (hN : 1 ≤ N) (hs : retryableStatus s = true)
    (hM : 1 ≤ M) (hB : retryableStatus sB = false)
    (hB0 : reqB 0 = ApiOutcome.err sB) :
    (∀ (req : Nat → ApiOutcome) (mr : Int),
      (execute_with_retry req mr d).invocations ≤ mr.toNat)
    ∧ (execute_with_retry req2 3 d).result = Except.ok (some v)
    ∧ (execute_with_retry req2 3 d).invocations = 3
    ∧ (execute_with_retry (fun _ => ApiOutcome.err s) N d).invocations = N
    ∧ (execute_with_retry (fun _ => ApiOutcome.err s) N d).result = Except.error s
    ∧ (execute_with_retry reqB M d).invocations = 1
    ∧ (execute_with_retry reqB M d).result = Except.error sB
    ∧ (execute_with_retry reqB M d).sleeps = [] := by
  have hscen : execute_with_retry req2 3 d
      = ⟨Except.ok (some v), 3, [2 ^ 1 * d, 2 ^ 2 * d]⟩ := by
    unfold execute_with_retry
    unfold execRetryAux
    rw [dif_pos (by norm_num), h0]
    norm_num [retryableStatus]
    unfold execRetryAux
    rw [dif_pos (by norm_num), h1]
    norm_num [retryableStatus]
    unfold execRetryAux
    rw [dif_pos (by norm_num), h2]
  have hfail : execute_with_retry (fun _ => ApiOutcome.err s) N d
      = ⟨Except.error s, N, backoffSleeps d 0 (N - 1)⟩ := by
    unfold execute_with_retry
    rw [execRetryAux_allFail s d hs N N 0 0 [] (by push_cast; omega) (by push_cast; omega)]
    simp
  have hbad : execute_with_retry reqB M d = ⟨Except.error sB, 1, []⟩ := by
    unfold execute_with_retry
    unfold execRetryAux
    rw [dif_pos (by push_cast; omega), hB0]
    simp [hB]
  have hbound : ∀ (req : Nat → ApiOutcome) (mr : Int),
      (execute_with_retry req mr d).invocations ≤ mr.toNat := by
    intro req mr
    have := execRetryAux_invocations_le req mr d (mr.toNat) 0 0 [] (by omega)
    simpa using this
  rw [hscen, hfail, hbad]
  exact ⟨hbound, rfl, rfl, rfl, rfl, rfl, rfl, rfl⟩

theorem C3_retry_attempt_counts_witness :
    (∀ (req : Nat → ApiOutcome) (mr : Int),
      (execute_with_retry req mr 1).invocations ≤ mr.toNat)
    ∧ (execute_with_retry
        (fun k => if k = 0 then ApiOutcome.err 429
                  else if k = 1 then ApiOutcome.err 500 else ApiOutcome.ok 7) 3 1).result
      = Except.ok (some 7)
    ∧ (execute_with_retry
        (fun k => if k = 0 then ApiOutcome.err 429
                  else if k = 1 then ApiOutcome.err 500 else ApiOutcome.ok 7) 3 1).invocations
      = 3
    ∧ (execute_with_retry (fun _ => ApiOutcome.err 503) 2 1).invocations = 2
    ∧ (execute_with_retry (fun _ => ApiOutcome.err 503) 2 1).result = Except.error 503
    ∧ (execute_with_retry (fun _ => ApiOutcome.err 404) 3 1).invocations = 1
    ∧ (execute_with_retry (fun _ => ApiOutcome.err 404) 3 1).result = Except.error 404
    ∧ (execute_with_retry (fun _ => ApiOutcome.err 404) 3 1).sleeps = [] :=
  C3_retry_attempt_counts 1 7 2 503 404 3
    (fun k => if k = 0 then ApiOutcome.err 429
              else if k = 1 then ApiOutcome.err 500 else ApiOutcome.ok 7)
    (fun _ => ApiOutcome.err 404)
    (by rfl) (by rfl) (by rfl) (by norm_num) (by rfl) (by norm_num) (by rfl) (by rfl)

/-- Claim C4: in a run of retryable failures, the sleep before the k-th retry
(k = 1, 2, ...) lasts exactly `2^k * retry_delay` seconds, so with a positive
delay successive backoff sleeps strictly increase by doubling, with no jitter;
no sleep follows the attempt that exhausts `max_retries`, and a non-retryable
first failure produces no sleep at all. -/
theorem C4_backoff_schedule (d N s sB M : Nat) (hN : 1 ≤ N)
    (hs : retryableStatus s = true) (hB : retryableStatus sB = false) (hM : 1 ≤ M)
    (reqB : Nat → ApiOutcome) (hB0 : reqB 0 = ApiOutcome.err sB) :
    (execute_with_retry (fun _ => ApiOutcome.err s) N d).sleeps
        = (List.range (N - 1)).map (fun k => 2 ^ (k + 1) * d)
    ∧ (execute_with_retry (fun _ => ApiOutcome.err s) N d).sleeps.length = N - 1
    ∧ (∀ i, i + 1 < (execute_with_retry (fun _ => ApiOutcome.err s) N d).sleeps.length →
        (execute_with_retry (fun _ => ApiOutcome.err s) N d).sleeps.getD (i + 1) 0
          = 2 * (execute_with_retry (fun _ => ApiOutcome.err s) N d).sleeps.getD i 0)
    ∧ (1 ≤ d →
        ∀ i, i + 1 < (execute_with_retry (fun _ => ApiOutcome.err s) N d).sleeps.length →
        (execute_with_retry (fun _ => ApiOutcome.err s) N d).sleeps.getD i 0
          < (execute_with_retry (fun _ => ApiOutcome.err s) N d).sleeps.getD (i + 1) 0)
    ∧ (execute_with_retry reqB M d).sleeps = [] := by
  have hrun : execute_with_retry (fun _ => ApiOutcome.err s) N d
      = ⟨Except.error s, N, backoffSleeps d 0 (N - 1)⟩ := by
    unfold execute_with_retry
    rw [execRetryAux_allFail s d hs N N 0 0 [] (by push_cast; omega) (by push_cast; omega)]
    simp
  have hfun : (fun k => 2 ^ (0 + 1 + k) * d) = (fun k : Nat => 2 ^ (k + 1) * d) := by
    funext k
    congr 2
    omega
  have hsl : (execute_with_retry (fun _ => ApiOutcome.err s) N d).sleeps
      = (List.range (N - 1)).map (fun k => 2 ^ (k + 1) * d) := by
    rw [hrun]
    show backoffSleeps d 0 (N - 1) = _
    rw [backoffSleeps_eq_map, hfun]
  have hbad : execute_with_retry reqB M d = ⟨Except.error sB, 1, []⟩ := by
    unfold execute_with_retry
    unfold execRetryAux
    rw [dif_pos (by push_cast; omega), hB0]
    simp [hB]
  have hget : ∀ i, i < N - 1 →
      (execute_with_retry (fun _ => ApiOutcome.err s) N d).sleeps.getD i 0
        = 2 ^ (i + 1) * d := by
    intro i hi
    rw [hsl, List.getD_eq_getElem?_getD, List.getElem?_map, List.getElem?_range hi]
    rfl
  have hlen : (execute_with_retry (fun _ => ApiOutcome.err s) N d).sleeps.length = N - 1 := by
    rw [hsl]; simp
  refine ⟨hsl, hlen, ?_, ?_, by rw [hbad]⟩
  · intro i hi
    rw [hlen] at hi
    rw [hget i (by omega), hget (i + 1) (by omega)]
    ring
  · intro hd i hi
    rw [hlen] at hi
    rw [hget i (by omega), hget (i + 1) (by omega)]
    have h2 : (2 : Nat) ^ (i + 1) < 2 ^ (i + 1 + 1) :=
      Nat.pow_lt_pow_right (by norm_num) (by omega)
    exact mul_lt_mul_of_pos_right h2 (by omega)

theorem C4_backoff_schedule_witness :
    (execute_with_retry (fun _ => ApiOutcome.err 429) 3 1).sleeps
        = (List.range 2).map (fun k => 2 ^ (k + 1) * 1)
    ∧ (execute_with_retry (fun _ => ApiOutcome.err 429) 3 1).sleeps.length = 2
    ∧ (∀ i, i + 1 < (execute_with_retry (fun _ => ApiOutcome.err 429) 3 1).sleeps.length →
        (execute_with_retry (fun _ => ApiOutcome.err 429) 3 1).sleeps.getD (i + 1) 0
          = 2 * (execute_with_retry (fun _ => ApiOutcome.err 429) 3 1).sleeps.getD i 0)
    ∧ (1 ≤ 1 →
        ∀ i, i + 1 < (execute_with_retry (fun _ => ApiOutcome.err 429) 3 1).sleeps.length →
        (execute_with_retry (fun _ => ApiOutcome.err 429) 3 1).sleeps.getD i 0
          < (execute_with_retry (fun _ => ApiOutcome.err 429) 3 1).sleeps.getD (i + 1) 0)
    ∧ (execute_with_retry (fun _ => ApiOutcome.err 404) 2 1).sleeps = [] :=
  C4_backoff_schedule 1 3 429 404 2 (by norm_num) (by rfl) (by rfl) (by norm_num)
    (fun _ => ApiOutcome.err 404) (by rfl)

/-! ## Claims about paginated listing -/

theorem listFolderAux_spec (pages : List (List Nat)) :
    ∀ (n i rpcs : Nat) (acc : List Nat), pages.length - i = n + 1 → i < pages.length →
    listFolderAux pages i rpcs acc
      = (acc ++ (pages.drop i).flatten, rpcs + (pages.length - i)) := by
  intro n
  induction n with
  | zero =>
    intro i rpcs acc hn hi
    unfold listFolderAux
    rw [dif_neg (by omega : ¬ i + 1 < pages.length)]
    rw [List.getD_eq_getElem _ _ hi, List.drop_eq_getElem_cons hi,
      List.drop_eq_nil_of_le (by omega)]
    simp [hn]
  | succ m ih =>
    intro i rpcs acc hn hi
    unfold listFolderAux
    rw [dif_pos (by omega : i + 1 < pages.length)]
    rw [ih (i + 1) (rpcs + 1) (acc ++ pages.getD i []) (by omega) (by omega)]
    rw [List.getD_eq_getElem _ _ hi, List.drop_eq_getElem_cons hi, List.flatten_cons,
      Prod.mk.injEq]
    exact ⟨by simp [List.append_assoc], by omega⟩

/-- Claim C7: `list_folder_contents` eagerly follows the continuation token
until the store reports none left, returning all pages' items concatenated in
the order the pages were returned, with one list RPC per page: a 250-item
store paginated at batch size 100 answers in 3 pages, so exactly 3 RPCs are
issued and all 250 items come back in order; an empty store yields the empty
sequence. -/
theorem C7_pagination :
    (∀ pages : List (List Nat),
      list_folder_contents pages = (pages.flatten, max 1 pages.length))
    ∧ list_folder_contents
        [List.range' 0 100 1, List.range' 100 100 1, List.range' 200 50 1]
      = (List.range 250, 3)
    ∧ list_folder_contents [] = ([], 1) := by
  have hgen : ∀ pages : List (List Nat),
      list_folder_contents pages = (pages.flatten, max 1 pages.length) := by
    intro pages
    cases hp : pages with
    | nil =>
      unfold list_folder_contents listFolderAux
      simp
    | cons p ps =>
      unfold list_folder_contents
      rw [listFolderAux_spec (p :: ps) (ps.length) 0 0 [] (by simp) (by simp)]
      simp
  refine ⟨hgen, ?_, ?_⟩
  · rw [hgen, List.range_eq_range']
    have h1 : List.range' 100 100 1 ++ List.range' 200 50 1 = List.range' 100 150 1 := by
      have h := List.range'_append 100 100 50 1
      norm_num at h
      exact h
    have h2 : List.range' 0 100 1 ++ List.range' 100 150 1 = List.range' 0 250 1 := by
      have h := List.range'_append 0 100 150 1
      norm_num at h
      exact h
    simp [List.flatten, h1, h2]
  · rw [hgen]
    simp

/-- Claim C10: a non-positive configured `max_retries` means the retry loop
body is never entered: `_execute_with_retry` returns `None` without invoking
the wrapped request and without raising. -/
theorem C10_nonpositive_retries (mr : Int) (hmr : mr ≤ 0)
    (req : Nat → ApiOutcome) (d : Nat) :
    execute_with_retry req mr d = ⟨Except.ok none, 0, []⟩ := by
  unfold execute_with_retry
  unfold execRetryAux
  rw [dif_neg (by push_cast; omega)]

theorem C10_nonpositive_retries_witness :
    execute_with_retry (fun _ => ApiOutcome.err 429) 0 5 = ⟨Except.ok none, 0, []⟩
    ∧ execute_with_retry (fun _ => ApiOutcome.ok 1) (-3) 5 = ⟨Except.ok none, 0, []⟩ :=
  ⟨C10_nonpositive_retries 0 (by norm_num) (fun _ => ApiOutcome.err 429) 5,
   C10_nonpositive_retries (-3) (by norm_num) (fun _ => ApiOutcome.ok 1) 5⟩

end GDrive
